import Mathlib

/-!
Shallow embedding of the Pond simulation's intersection-detection and
particle-lifecycle core (AtomManager.cpp, SpatialGrid.cpp, ProtonManager.cpp,
Proton.cpp, Ring.cpp, Constants.h).  Float arithmetic is modelled exactly over
the rationals; each call to std::sqrt is modelled by Real.sqrt applied to the
rational operand cast to the reals.  Where the repository contains several
divergent revisions of a component, the embedding follows the feature-complete
revision in the .cpp files together with Constants.h, as the later files
supersede the stale headers.
-/

namespace Pond

/-- sf::Color restricted to the RGB channels used by the core logic.
Channel values are modelled as integers; the C++ code promotes the uint8
channels to int before all the arithmetic modelled here. -/
structure Color where
  r : ℤ
  g : ℤ
  b : ℤ
deriving DecidableEq, Repr

/-- RingShape (AtomManager.h): a circle derived from a ring or one of its
bounce reflections.  sourceRing models the Ring pointer as an abstract
numeric identity; bounceIndex is -1 for the main ring. -/
structure RingShape where
  centerX : ℚ
  centerY : ℚ
  radius : ℚ
  color : Color
  sourceRing : ℕ
  bounceIndex : ℤ
deriving DecidableEq, Repr

/-- Squared center distance dx*dx + dy*dy, the common prefix of both
circle-intersection tests. -/
def distSq (s1 s2 : RingShape) : ℚ :=
  (s2.centerX - s1.centerX) * (s2.centerX - s1.centerX) +
    (s2.centerY - s1.centerY) * (s2.centerY - s1.centerY)

/-- AtomManager::circlesIntersectFast (AtomManager.cpp:485-500): squared
distance test with an early false exit when distanceSquared < 0.001f. -/
def circlesIntersectFast (s1 s2 : RingShape) : Bool :=
  if distSq s1 s2 < 1/1000 then false
  else
    let sumRadii := s1.radius + s2.radius
    let diffRadii := |s1.radius - s2.radius|
    decide (distSq s1 s2 ≤ sumRadii * sumRadii) &&
      decide (diffRadii * diffRadii ≤ distSq s1 s2)

/-- The center distance std::sqrt(dx*dx + dy*dy) computed by
PathFollowingAtom::circlesIntersect. -/
noncomputable def centerDist (s1 s2 : RingShape) : ℝ :=
  Real.sqrt ((distSq s1 s2 : ℚ) : ℝ)

/-- PathFollowingAtom::circlesIntersect (AtomManager.cpp:177-187): the
sqrt-based exact intersection test. -/
def circlesIntersect (s1 s2 : RingShape) : Prop :=
  centerDist s1 s2 ≤ (s1.radius : ℝ) + (s2.radius : ℝ) ∧
    |(s1.radius : ℝ) - (s2.radius : ℝ)| ≤ centerDist s1 s2 ∧
    0 < centerDist s1 s2

/-- The specification's intersection predicate from spec section 8:
intersects(d, r1, r2) = (|r1-r2| <= d <= r1+r2) and d > 0. -/
def specIntersects (d r1 r2 : ℝ) : Prop :=
  |r1 - r2| ≤ d ∧ d ≤ r1 + r2 ∧ 0 < d

/-- Ring::calculateFrequencyBasedSpeed (Ring.cpp:10-22): color-derived
frequency speed, blue weighted heaviest, mapped into the range 20..120. -/
def calculateFrequencyBasedSpeed (c : Color) : ℚ :=
  let speedFactor : ℚ :=
    ((c.r : ℚ) * (1/10) + (c.g : ℚ) * (3/10) + (c.b : ℚ) * (6/10)) / 255
  20 + speedFactor * (120 - 20)

/-- PathFollowingAtom::calculateInterferenceColor (AtomManager.cpp:189-199):
per-channel additive mix clamped to 255. -/
def calculateInterferenceColor (c1 c2 : Color) : Color :=
  ⟨min 255 (c1.r + c2.r), min 255 (c1.g + c2.g), min 255 (c1.b + c2.b)⟩

/-- PathFollowingAtom::calculateInterferenceEnergy (AtomManager.cpp:201-213):
sum of the two frequency speeds plus 0.4 times their absolute difference. -/
def calculateInterferenceEnergy (c1 c2 : Color) : ℚ :=
  let energy1 := calculateFrequencyBasedSpeed c1
  let energy2 := calculateFrequencyBasedSpeed c2
  (energy1 + energy2) + |energy1 - energy2| * (2/5)

/-- PathFollowingAtom::shouldCreateInterference (AtomManager.cpp:215-223):
colors interfere when some channel differs by more than the tolerance 8. -/
def shouldCreateInterference (c1 c2 : Color) : Bool :=
  decide (8 < |c1.r - c2.r|) || decide (8 < |c1.g - c2.g|) ||
    decide (8 < |c1.b - c2.b|)

/-- First shape of the C1 counterexample: unit circle at the origin. -/
def cexFastShape1 : RingShape :=
  ⟨0, 0, 1, ⟨255, 0, 0⟩, 0, -1⟩

/-- Second shape of the C1 counterexample: unit circle centered 1/100 away. -/
def cexFastShape2 : RingShape :=
  ⟨1/100, 0, 1, ⟨0, 0, 255⟩, 1, -1⟩

/-- Constants::System::MAX_ATOMS (Constants.h:13). -/
def MAX_ATOMS : ℕ := 35

/-- The fixed-capacity FIFO pool of AtomManager (AtomManager.h:101-103):
a slot array of MAX_ATOMS optional entries, a FIFO insertion cursor and a
saturating count of ever-filled slots. -/
structure AtomPool (α : Type) where
  atoms : List (Option α)
  nextSlot : ℕ
  atomCount : ℕ
deriving DecidableEq, Repr

/-- AtomManager::AtomManager (AtomManager.cpp:226-231): the pool starts with
MAX_ATOMS empty slots, cursor 0 and count 0. -/
def AtomPool.init (α : Type) : AtomPool α :=
  ⟨List.replicate MAX_ATOMS none, 0, 0⟩

/-- AtomManager::addPathFollowingAtom (AtomManager.cpp:421-439): write the new
atom at the FIFO cursor slot, advance the cursor modulo MAX_ATOMS, and bump
the count unless it is already at MAX_ATOMS. -/
def AtomPool.add (pool : AtomPool α) (a : α) : AtomPool α :=
  { atoms := pool.atoms.set pool.nextSlot (some a)
    nextSlot := (pool.nextSlot + 1) % MAX_ATOMS
    atomCount := if pool.atomCount < MAX_ATOMS then pool.atomCount + 1 else pool.atomCount }

/-- The pool obtained by spawning the atoms of l in order into a fresh pool. -/
def spawnSeq (l : List α) : AtomPool α :=
  l.foldl AtomPool.add (AtomPool.init α)

/-- Spec-side bookkeeping for the FIFO discipline: the index (into the spawn
sequence) of the spawn whose atom occupies slot j after n spawns, if any. -/
def occupant (n j : ℕ) : Option ℕ :=
  if n ≤ j then none else some (j + MAX_ATOMS * ((n - 1 - j) / MAX_ATOMS))

/-- Constants::System::MAX_PROTONS (Constants.h:12), the capacity used by the
final ProtonManager revision (ProtonManager.cpp:12). -/
def MAX_PROTONS : ℕ := 75

/-- Proton::calculateRadius (Proton.cpp:134-139): energy-scaled radius clamped
to the range 3..8. -/
def calculateRadius (energy : ℚ) : ℚ :=
  max 3 (min (3 + energy * (1/100)) 8)

/-- Proton::calculateMass (Proton.cpp:141-145): mass proportional to energy. -/
def calculateMass (energy : ℚ) : ℚ :=
  energy * (1/10)

/-- The Proton state (Proton.h:10-31). -/
structure Proton where
  posX : ℚ
  posY : ℚ
  velX : ℚ
  velY : ℚ
  color : Color
  energy : ℚ
  radius : ℚ
  mass : ℚ
  isAliveFlag : Bool
  markedForDeletion : Bool
  lifetime : ℚ
  maxLifetime : ℚ
  pulseTimer : ℚ
  fadeStartTime : ℚ
  charge : ℤ
  neutronCount : ℤ
  stableHydrogen : Bool
  waveFieldTimer : ℚ
deriving DecidableEq, Repr

/-- The Proton constructor with the 5-parameter interface declared in
Proton.h:33 (used by every call site); field initialisation follows the
constructor body Proton.cpp:7-27, with m_charge taking the declared charge
parameter (the 4-parameter body in Proton.cpp predates that parameter). -/
def Proton.spawn (posX posY velX velY : ℚ) (color : Color) (energy : ℚ)
    (charge : ℤ) : Proton :=
  { posX := posX, posY := posY, velX := velX, velY := velY, color := color
    energy := energy, radius := calculateRadius energy
    mass := calculateMass energy, isAliveFlag := true
    markedForDeletion := false, lifetime := 0, maxLifetime := 20
    pulseTimer := 0, fadeStartTime := 20 * (4/5), charge := charge
    neutronCount := 0, stableHydrogen := false, waveFieldTimer := 0 }

/-- Proton::isAlive (Proton.h:42). -/
def Proton.isAlive (p : Proton) : Bool :=
  p.isAliveFlag && !p.markedForDeletion

/-- Proton::isStableHelium4 (Proton.h:53). -/
def Proton.isStableHelium4 (p : Proton) : Bool :=
  decide (p.charge = 2) && decide (p.neutronCount = 2)

/-- The proton pool slot array (ProtonManager.cpp:12). -/
abbrev ProtonPool : Type := List (Option Proton)

/-- Whether a slot contributes to the capacity count: live and neither stable
hydrogen nor stable Helium-4 (ProtonManager::getProtonCount body). -/
def countsTowardCapacity (s : Option Proton) : Bool :=
  match s with
  | some q => q.isAlive && !q.stableHydrogen && !q.isStableHelium4
  | none => false

/-- ProtonManager::getProtonCount (ProtonManager.cpp:136-148). -/
def getProtonCount (pool : ProtonPool) : ℕ :=
  List.countP countsTowardCapacity pool

/-- ProtonManager::clear (ProtonManager.cpp:122-134) restricted to the slot
array: every non-stable slot is reset, stable hydrogen and He-4 survive. -/
def protonClear (pool : ProtonPool) : ProtonPool :=
  pool.map (fun s =>
    match s with
    | some q => if !q.stableHydrogen && !q.isStableHelium4 then none else some q
    | none => none)

/-- The slot-search loop of ProtonManager::spawnProton
(ProtonManager.cpp:415-429): write the new proton into the first slot that is
empty or holds a non-alive proton; if no such slot exists, change nothing. -/
def writeFirstFree : List (Option Proton) → Proton → List (Option Proton)
  | [], _ => []
  | s :: rest, p =>
      if (match s with | none => true | some q => !q.isAlive) then
        some p :: rest
      else
        s :: writeFirstFree rest p

/-- ProtonManager::spawnProton (ProtonManager.cpp:404-430): reject when the
non-stable live count has reached MAX_PROTONS, otherwise write into the first
free slot. -/
def spawnProton (pool : ProtonPool) (posX posY velX velY : ℚ) (color : Color)
    (energy : ℚ) (charge : ℤ) : ProtonPool :=
  if MAX_PROTONS ≤ getProtonCount pool then pool
  else writeFirstFree pool (Proton.spawn posX posY velX velY color energy charge)

/-- Constants::Proton::DEUTERIUM_FUSION_VELOCITY_THRESHOLD (Constants.h:78). -/
def DEUTERIUM_FUSION_VELOCITY_THRESHOLD : ℚ := 30

/-- Constants::Proton::NEUTRON_FORMATION_TIME (Constants.h:68). -/
def NEUTRON_FORMATION_TIME : ℚ := 1/2

/-- The relative speed std::sqrt of the squared relative velocity, as computed
in ProtonManager::handleNuclearFusion (ProtonManager.cpp:487-488). -/
noncomputable def relSpeed (p1 p2 : Proton) : ℝ :=
  Real.sqrt (((p1.velX - p2.velX) * (p1.velX - p2.velX) +
    (p1.velY - p2.velY) * (p1.velY - p2.velY) : ℚ) : ℝ)

/-- The collision test of handleNuclearFusion (ProtonManager.cpp:474-484):
the pair is skipped exactly when distSquared > collisionDist^2. -/
def protonsColliding (p1 p2 : Proton) : Prop :=
  (p2.posX - p1.posX) * (p2.posX - p1.posX) +
      (p2.posY - p1.posY) * (p2.posY - p1.posY) ≤
    (p1.radius + p2.radius) * (p1.radius + p2.radius)

/-- The deuterium + bare-proton pattern of fusion case 1
(ProtonManager.cpp:491-492). -/
def deuteriumProtonPair (p1 p2 : Proton) : Prop :=
  (p1.charge = 0 ∧ p1.neutronCount = 1 ∧ p2.charge = 1 ∧ p2.neutronCount = 0) ∨
    (p2.charge = 0 ∧ p2.neutronCount = 1 ∧ p1.charge = 1 ∧ p1.neutronCount = 0)

/-- Fusion case 1 fires exactly when the pair collides, matches the
deuterium + bare-proton pattern, and the relative speed strictly exceeds the
threshold (ProtonManager.cpp:490-494). -/
def deuteriumFusionTriggers (p1 p2 : Proton) : Prop :=
  protonsColliding p1 p2 ∧ deuteriumProtonPair p1 p2 ∧
    ((DEUTERIUM_FUSION_VELOCITY_THRESHOLD : ℚ) : ℝ) < relSpeed p1 p2

/-- The Helium-3 particle built by fusion case 1 (ProtonManager.cpp:496-512):
a fresh proton at the mass-weighted center of mass, with mass-weighted
velocity, combined energy and charge +1, whose neutron count is then set
to 2. -/
def he3Fusion (p1 p2 : Proton) : Proton :=
  let totalMass := p1.mass + p2.mass
  let comX := (p1.posX * p1.mass + p2.posX * p2.mass) / totalMass
  let comY := (p1.posY * p1.mass + p2.posY * p2.mass) / totalMass
  let cvX := (p1.velX * p1.mass + p2.velX * p2.mass) / totalMass
  let cvY := (p1.velY * p1.mass + p2.velY * p2.mass) / totalMass
  let base := Proton.spawn comX comY cvX cvY ⟨255, 200, 100⟩ (p1.energy + p2.energy) 1
  { base with neutronCount := 2 }

/-- Proton::tryNeutronFormation (Proton.cpp:180-203). -/
def tryNeutronFormation (p : Proton) (deltaTime : ℚ) (nearAtom : Bool) : Proton :=
  if p.charge ≠ 1 then p
  else if !nearAtom then { p with waveFieldTimer := 0 }
  else
    let t := p.waveFieldTimer + deltaTime
    if NEUTRON_FORMATION_TIME ≤ t then
      { p with
          neutronCount := 1, charge := 0, radius := p.radius * (6/5),
          waveFieldTimer := 0 }
    else { p with waveFieldTimer := t }

/-- A run of per-tick neutron-formation updates: each tick supplies its
delta-time and whether the proton was near a live atom on that tick
(ProtonManager.cpp:26-59 computes the near flag, then calls
tryNeutronFormation once per tick). -/
def runNF (p : Proton) (ticks : List (ℚ × Bool)) : Proton :=
  ticks.foldl (fun q dn => tryNeutronFormation q dn.1 dn.2) p

/-- Spec-side cumulative near-time with reset: sum of the delta-times of the
trailing run of near ticks, reset to 0 by any not-near tick. -/
def cumNear (ticks : List (ℚ × Bool)) : ℚ :=
  ticks.foldl (fun t dn => if dn.2 then t + dn.1 else 0) 0

/-- Spec-side reachability: some tick ends with cumulative near-time at or
above the configured duration. -/
def reachedB (ticks : List (ℚ × Bool)) : Bool :=
  (List.range ticks.length).any
    (fun k => decide (NEUTRON_FORMATION_TIME ≤ cumNear (ticks.take (k + 1))))

/-- Shape identity comparison RingShape::operator== (AtomManager.h:30-32):
same source ring and same bounce index. -/
def shapeIdEq (a b : RingShape) : Bool :=
  decide (a.sourceRing = b.sourceRing) && decide (a.bounceIndex = b.bounceIndex)

/-- The PathFollowingAtom state (AtomManager.h:38-57), without the cached
sf::CircleShape, which is a render-only duplicate of the other fields. -/
structure Atom where
  curX : ℝ
  curY : ℝ
  prevX : ℝ
  prevY : ℝ
  color : Color
  radius : ℚ
  energy : ℚ
  lifetime : ℚ
  maxLifetime : ℚ
  isAliveFlag : Bool
  markedForDeletion : Bool
  pulseTimer : ℚ
  fadeStartTime : ℚ
  shape1 : RingShape
  shape2 : RingShape
  hasValidShapes : Bool

/-- PathFollowingAtom::findCurrentShapes (AtomManager.cpp:116-138): scan the
current shape list for the first shape matching each tracked identity, an
element matching identity 1 being excluded from matching identity 2 (the
else-if in the loop body). -/
def findCurrentShapes (s1 s2 : RingShape) (shapes : List RingShape) :
    Option RingShape × Option RingShape :=
  shapes.foldl (fun acc s =>
    if acc.1.isNone && shapeIdEq s s1 then (some s, acc.2)
    else if acc.2.isNone && shapeIdEq s s2 then (acc.1, some s)
    else acc) (none, none)

/-- PathFollowingAtom::calculateIntersectionPoint (AtomManager.cpp:140-175):
of the two algebraic circle-intersection solutions, return the one closer to
the previous position; fall back to center 1 on degenerate geometry. -/
noncomputable def calculateIntersectionPoint (s1 s2 : RingShape)
    (prevX prevY : ℝ) : ℝ × ℝ :=
  let dx : ℝ := ((s2.centerX - s1.centerX : ℚ) : ℝ)
  let dy : ℝ := ((s2.centerY - s1.centerY : ℚ) : ℝ)
  let distance : ℝ := Real.sqrt (dx * dx + dy * dy)
  if distance = 0 ∨ ((s1.radius + s2.radius : ℚ) : ℝ) < distance ∨
      distance < ((|s1.radius - s2.radius| : ℚ) : ℝ) then
    (((s1.centerX : ℚ) : ℝ), ((s1.centerY : ℚ) : ℝ))
  else
    let a : ℝ := (((s1.radius * s1.radius - s2.radius * s2.radius : ℚ) : ℝ) +
      distance * distance) / (2 * distance)
    let h : ℝ := Real.sqrt (((s1.radius * s1.radius : ℚ) : ℝ) - a * a)
    let px : ℝ := ((s1.centerX : ℚ) : ℝ) + (a * dx) / distance
    let py : ℝ := ((s1.centerY : ℚ) : ℝ) + (a * dy) / distance
    let i1 : ℝ × ℝ := (px + (h * dy) / distance, py - (h * dx) / distance)
    let i2 : ℝ × ℝ := (px - (h * dy) / distance, py + (h * dx) / distance)
    let d1 : ℝ := Real.sqrt ((i1.1 - prevX) * (i1.1 - prevX) +
      (i1.2 - prevY) * (i1.2 - prevY))
    let d2 : ℝ := Real.sqrt ((i2.1 - prevX) * (i2.1 - prevX) +
      (i2.2 - prevY) * (i2.2 - prevY))
    if d1 < d2 then i1 else i2

/-- PathFollowingAtom::isAlive (AtomManager.h:69). -/
def Atom.isAliveP (a : Atom) : Bool :=
  a.isAliveFlag && a.hasValidShapes && !a.markedForDeletion

open Classical in
/-- PathFollowingAtom::update (AtomManager.cpp:31-91), without the trailing
pulse/fade writes into the cached render shape.  Early return when the
internal alive flag is down; age the atom; die on lifetime expiry; die when a
tracked shape is missing or the current shapes no longer intersect; otherwise
move to the continuity-preserving intersection point. -/
noncomputable def Atom.update (a : Atom) (deltaTime : ℚ)
    (shapes : List RingShape) : Atom :=
  if !a.isAliveFlag then a
  else
    let a1 := { a with
        lifetime := a.lifetime + deltaTime
        pulseTimer := a.pulseTimer + deltaTime }
    if a1.maxLifetime ≤ a1.lifetime then { a1 with isAliveFlag := false }
    else
      match findCurrentShapes a1.shape1 a1.shape2 shapes with
      | (some c1, some c2) =>
          if circlesIntersect c1 c2 then
            let pt := calculateIntersectionPoint c1 c2 a1.curX a1.curY
            { a1 with
                prevX := a1.curX, prevY := a1.curY
                curX := pt.1, curY := pt.2 }
          else { a1 with isAliveFlag := false }
      | _ => { a1 with hasValidShapes := false, isAliveFlag := false }

/-- One 32-bit half of the intersection key (AtomManager.cpp:458-461): the
ring pointer truncated to 32 bits, xor-ed with the bounce index converted to
uint32 and shifted left by 16 (wrapping modulo 2^32). -/
def keyHalf (s : RingShape) : ℕ :=
  Nat.xor (s.sourceRing % 2 ^ 32) (((s.bounceIndex % 2 ^ 32).toNat * 2 ^ 16) % 2 ^ 32)

/-- AtomManager::createIntersectionKey (AtomManager.cpp:442-464): order the
two shapes canonically (smaller ring pointer first, bounce index as
tie-break), then pack the two 32-bit halves into one 64-bit key; the bitwise
or of the shifted high half with the low half equals their sum because the
low half is below 2^32. -/
def createIntersectionKey (s1 s2 : RingShape) : ℕ :=
  let swap : Bool :=
    decide (s2.sourceRing < s1.sourceRing) ||
      (decide (s1.sourceRing = s2.sourceRing) &&
        decide (s2.bounceIndex < s1.bounceIndex))
  let first := if swap then s2 else s1
  let second := if swap then s1 else s2
  keyHalf first * 2 ^ 32 + keyHalf second

/-- Construction of a PathFollowingAtom (AtomManager.cpp:11-29): interference
color and energy from the two shape colors, energy-scaled radius and
lifetime, initial position at the given intersection point. -/
noncomputable def mkPathAtom (s1 s2 : RingShape) (posX posY : ℝ) : Atom :=
  let energy := calculateInterferenceEnergy s1.color s2.color
  { curX := posX, curY := posY, prevX := posX, prevY := posY
    color := calculateInterferenceColor s1.color s2.color
    energy := energy, radius := 9/5 + energy * (1/40)
    lifetime := 0, maxLifetime := 5 + energy * (1/50)
    isAliveFlag := true, markedForDeletion := false, pulseTimer := 0
    fadeStartTime := (5 + energy * (1/50)) * (7/10)
    shape1 := s1, shape2 := s2, hasValidShapes := true }

/-- PathFollowingAtom::isTrackingShapes (AtomManager.cpp:110-114). -/
def Atom.isTrackingShapes (a : Atom) (s1 s2 : RingShape) : Bool :=
  (shapeIdEq a.shape1 s1 && shapeIdEq a.shape2 s2) ||
    (shapeIdEq a.shape1 s2 && shapeIdEq a.shape2 s1)

/-- The AtomManager state relevant to intersection tracking: the FIFO atom
pool and the set of tracked intersection keys (AtomManager.h:101-106). -/
structure AMState where
  pool : AtomPool Atom
  tracked : List ℕ

/-- The intersection point computed on the spawn path
(AtomManager.cpp:392-407): the (+h) branch of the two-circle intersection
formula, with the distance recovered from the squared distance by
std::sqrt. -/
noncomputable def spawnIntersectionPoint (s1 s2 : RingShape) : ℝ × ℝ :=
  let dsq : ℝ := ((distSq s1 s2 : ℚ) : ℝ)
  let distance : ℝ := Real.sqrt dsq
  let dx : ℝ := ((s2.centerX - s1.centerX : ℚ) : ℝ)
  let dy : ℝ := ((s2.centerY - s1.centerY : ℚ) : ℝ)
  let a : ℝ :=
    (((s1.radius * s1.radius - s2.radius * s2.radius : ℚ) : ℝ) + dsq) /
      (2 * distance)
  let h : ℝ := Real.sqrt (((s1.radius * s1.radius : ℚ) : ℝ) - a * a)
  let px : ℝ := ((s1.centerX : ℚ) : ℝ) + (a * dx) / distance
  let py : ℝ := ((s1.centerY : ℚ) : ℝ) + (a * dy) / distance
  (px + (h * dy) / distance, py - (h * dx) / distance)

open Classical in
/-- AtomManager::checkShapePairForNewIntersection (AtomManager.cpp:362-419).
Returns the new state and whether an atom was spawned.  Reject same-ring
pairs, non-interfering colors and non-intersecting circles; reject pairs whose
key is already tracked or already tracked by a live atom; otherwise compute
the (+h) intersection point and, when it is within 50 units of the viewport,
record the key and spawn the atom into the FIFO pool. -/
noncomputable def checkShapePairForNewIntersection (st : AMState)
    (s1 s2 : RingShape) (winW winH : ℕ) : AMState × Bool :=
  if s1.sourceRing = s2.sourceRing then (st, false)
  else if !shouldCreateInterference s1.color s2.color then (st, false)
  else if !circlesIntersectFast s1 s2 then (st, false)
  else
    let key := createIntersectionKey s1 s2
    if key ∈ st.tracked then (st, false)
    else if (st.pool.atoms.take st.pool.atomCount).any
        (fun o => match o with
          | some a => a.isAliveP && a.isTrackingShapes s1 s2
          | none => false) then (st, false)
    else
      let pt := spawnIntersectionPoint s1 s2
      if -50 ≤ pt.1 ∧ pt.1 ≤ (winW : ℝ) + 50 ∧
          -50 ≤ pt.2 ∧ pt.2 ≤ (winH : ℝ) + 50 then
        (⟨st.pool.add (mkPathAtom s1 s2 pt.1 pt.2), key :: st.tracked⟩, true)
      else (st, false)

/-- Identity of a detected pair up to order: both components match, or they
match crosswise (the claim's (A,B) versus (B,A)). -/
def samePairId (c p : RingShape × RingShape) : Bool :=
  (shapeIdEq c.1 p.1 && shapeIdEq c.2 p.2) ||
    (shapeIdEq c.1 p.2 && shapeIdEq c.2 p.1)

/-- The number of atoms spawned for pair p along a sequence of detection
calls processed in order (no periodic tracked-set clear in between). -/
noncomputable def spawnsForPair (st : AMState)
    (calls : List (RingShape × RingShape)) (winW winH : ℕ)
    (p : RingShape × RingShape) : ℕ :=
  match calls with
  | [] => 0
  | c :: rest =>
      (if samePairId c p &&
          (checkShapePairForNewIntersection st c.1 c.2 winW winH).2 then 1 else 0) +
        spawnsForPair (checkShapePairForNewIntersection st c.1 c.2 winW winH).1
          rest winW winH p

/-- Constants::SpatialGrid::GRID_MARGIN_CELLS (Constants.h:190). -/
def GRID_MARGIN_CELLS : ℤ := 4

/-- Constants::SpatialGrid::VIEWPORT_MARGIN (Constants.h:188). -/
def VIEWPORT_MARGIN : ℚ := 200

/-- The grid width used to flatten 2-d cell coordinates
(SpatialGrid.cpp:18,40): ceil(windowWidth / cellSize) plus the margin
cells. -/
def gridWidth (winW : ℕ) (cellSize : ℚ) : ℤ :=
  ⌈(winW : ℚ) / cellSize⌉ + GRID_MARGIN_CELLS

/-- The consecutive integers from a to b inclusive. -/
def intRange (a b : ℤ) : List ℤ :=
  (List.range (b + 1 - a).toNat).map (fun (k : ℕ) => a + (k : ℤ))

/-- SpatialGrid::getNeighborCells (SpatialGrid.cpp:24-52): the flattened
indices cy * gridWidth + cx of every cell the circle's bounding box
[center - radius, center + radius] overlaps, rows outermost. -/
def getNeighborCells (winW : ℕ) (cellSize : ℚ) (s : RingShape) : List ℤ :=
  let minCellX := ⌊(s.centerX - s.radius) / cellSize⌋
  let maxCellX := ⌊(s.centerX + s.radius) / cellSize⌋
  let minCellY := ⌊(s.centerY - s.radius) / cellSize⌋
  let maxCellY := ⌊(s.centerY + s.radius) / cellSize⌋
  (intRange minCellY maxCellY).flatMap (fun cy =>
    (intRange minCellX maxCellX).map (fun cx =>
      cy * gridWidth winW cellSize + cx))

/-- SpatialGrid::isNearViewport (SpatialGrid.cpp:145-156): the shape's
bounding box, padded by the margin, touches the viewport. -/
def isNearViewport (winW winH : ℕ) (s : RingShape) (margin : ℚ) : Bool :=
  let cullMargin := s.radius + margin
  decide (0 ≤ s.centerX + cullMargin) &&
    decide (s.centerX - cullMargin ≤ (winW : ℚ)) &&
    decide (0 ≤ s.centerY + cullMargin) &&
    decide (s.centerY - cullMargin ≤ (winH : ℚ))

/-- The grid produced by SpatialGrid::rebuild (SpatialGrid.cpp:54-80): cell c
holds, in index order, every shape near the viewport whose cell bounding box
contains c; shapes beyond the viewport margin are culled entirely. -/
def gridBucket (winW winH : ℕ) (cellSize : ℚ) (shapes : List RingShape)
    (c : ℤ) : List ℕ :=
  (List.range shapes.length).filter (fun i =>
    match shapes[i]? with
    | some s => isNearViewport winW winH s VIEWPORT_MARGIN &&
        decide (c ∈ getNeighborCells winW cellSize s)
    | none => false)

/-- Append-if-absent, the std::find dedup of getPotentialIntersections
(SpatialGrid.cpp:103-107). -/
def dedupPush (acc : List ℕ) (x : ℕ) : List ℕ :=
  if x ∈ acc then acc else acc ++ [x]

/-- SpatialGrid::getPotentialIntersections (SpatialGrid.cpp:82-113) for the
shape at index i: walk the cells of its bounding box and collect the shapes
stored in those cells, skipping the shape itself and duplicates. -/
def getPotentialIntersections (winW winH : ℕ) (cellSize : ℚ)
    (shapes : List RingShape) (i : ℕ) : List ℕ :=
  match shapes[i]? with
  | none => []
  | some s =>
      (getNeighborCells winW cellSize s).foldl (fun acc c =>
        (gridBucket winW winH cellSize shapes c).foldl (fun acc2 j =>
          if j = i then acc2 else dedupPush acc2 j) acc) []

/-- SpatialGrid::getAllPotentialPairs (SpatialGrid.cpp:115-142): for each
index i keep the potential partners with strictly larger index, forming each
candidate pair once with increasing indices. -/
def getAllPotentialPairs (winW winH : ℕ) (cellSize : ℚ)
    (shapes : List RingShape) : List (ℕ × ℕ) :=
  (List.range shapes.length).flatMap (fun i =>
    (getPotentialIntersections winW winH cellSize shapes i).filterMap (fun j =>
      if i < j ∧ j < shapes.length then some (i, j) else none))

/-- First shape of the C2 counterexample: a circle far off-screen. -/
def offShapeA : RingShape := ⟨3000, 300, 10, ⟨255, 0, 0⟩, 0, -1⟩

/-- Second shape of the C2 counterexample: a circle overlapping the first,
also far off-screen. -/
def offShapeB : RingShape := ⟨3005, 300, 10, ⟨0, 0, 255⟩, 1, -1⟩

/-- First shape of the C2 witness: an on-screen circle. -/
def gridShapeA : RingShape := ⟨100, 100, 50, ⟨255, 0, 0⟩, 0, -1⟩

/-- Second shape of the C2 witness: an on-screen circle intersecting the
first. -/
def gridShapeB : RingShape := ⟨160, 100, 30, ⟨0, 0, 255⟩, 1, -1⟩

theorem distSq_nonneg (s1 s2 : RingShape) : 0 ≤ distSq s1 s2 :=
  add_nonneg (mul_self_nonneg _) (mul_self_nonneg _)

/-- C1 (amended): the sqrt-based exact path equals the spec predicate at the
actual center distance; the squared-distance fast path equals the spec
predicate strengthened by the extra guard distSq >= 0.001; consequently the
two paths agree on every pair whose squared center distance is at least
0.001, but not in general. -/
theorem C1_intersection_predicates (s1 s2 : RingShape)
    (hr1 : 0 ≤ s1.radius) (hr2 : 0 ≤ s2.radius) :
    (circlesIntersect s1 s2 ↔ specIntersects (centerDist s1 s2) s1.radius s2.radius) ∧
    (circlesIntersectFast s1 s2 = true ↔
      (specIntersects (centerDist s1 s2) s1.radius s2.radius ∧ 1/1000 ≤ distSq s1 s2)) ∧
    (1/1000 ≤ distSq s1 s2 →
      (circlesIntersectFast s1 s2 = true ↔ circlesIntersect s1 s2)) := by
  have hq : (0:ℝ) ≤ ((distSq s1 s2 : ℚ) : ℝ) := by
    exact_mod_cast distSq_nonneg s1 s2
  have hsum : (0:ℝ) ≤ (s1.radius : ℝ) + (s2.radius : ℝ) := by
    have h1 : (0:ℝ) ≤ (s1.radius : ℝ) := by exact_mod_cast hr1
    have h2 : (0:ℝ) ≤ (s2.radius : ℝ) := by exact_mod_cast hr2
    linarith
  have hle : centerDist s1 s2 ≤ (s1.radius : ℝ) + (s2.radius : ℝ) ↔
      distSq s1 s2 ≤ (s1.radius + s2.radius) * (s1.radius + s2.radius) := by
    rw [centerDist, Real.sqrt_le_left hsum]
    rw [show ((s1.radius : ℝ) + (s2.radius : ℝ)) ^ 2 =
      (((s1.radius + s2.radius) * (s1.radius + s2.radius) : ℚ) : ℝ) by push_cast; ring]
    exact_mod_cast Iff.rfl
  have hge : |(s1.radius : ℝ) - (s2.radius : ℝ)| ≤ centerDist s1 s2 ↔
      |s1.radius - s2.radius| * |s1.radius - s2.radius| ≤ distSq s1 s2 := by
    rw [centerDist, Real.le_sqrt (abs_nonneg _) hq]
    rw [show |(s1.radius : ℝ) - (s2.radius : ℝ)| ^ 2 =
      ((|s1.radius - s2.radius| * |s1.radius - s2.radius| : ℚ) : ℝ) by
        push_cast; rw [abs_mul_abs_self, sq_abs]; ring]
    exact_mod_cast Iff.rfl
  have hpos : 0 < centerDist s1 s2 ↔ 0 < distSq s1 s2 := by
    rw [centerDist, Real.sqrt_pos]
    exact_mod_cast Iff.rfl
  have hfast : circlesIntersectFast s1 s2 = true ↔
      (1/1000 ≤ distSq s1 s2 ∧
        distSq s1 s2 ≤ (s1.radius + s2.radius) * (s1.radius + s2.radius) ∧
        |s1.radius - s2.radius| * |s1.radius - s2.radius| ≤ distSq s1 s2) := by
    unfold circlesIntersectFast
    by_cases h : distSq s1 s2 < 1/1000
    · simp [h, not_le.mpr h]
    · simp [h, not_lt.mp h, and_assoc]
  constructor
  · unfold circlesIntersect specIntersects
    tauto
  constructor
  · rw [hfast]
    unfold specIntersects
    rw [hle, hge, hpos]
    constructor
    · rintro ⟨h1, h2, h3⟩
      exact ⟨⟨h3, h2, by linarith⟩, h1⟩
    · rintro ⟨⟨h1, h2, _⟩, h4⟩
      exact ⟨h4, h2, h1⟩
  · intro hbig
    rw [hfast]
    unfold circlesIntersect
    rw [hle, hge, hpos]
    constructor
    · rintro ⟨_, h2, h3⟩
      exact ⟨h2, h3, by linarith⟩
    · rintro ⟨h1, h2, _⟩
      exact ⟨hbig, h1, h2⟩

/-- Witness for C1_intersection_predicates at concrete radii 1 and 2. -/
theorem C1_intersection_predicates_witness :
    0 ≤ cexFastShape1.radius ∧ 0 ≤ cexFastShape2.radius ∧
    ((circlesIntersect cexFastShape1 cexFastShape2 ↔
        specIntersects (centerDist cexFastShape1 cexFastShape2)
          cexFastShape1.radius cexFastShape2.radius) ∧
      (circlesIntersectFast cexFastShape1 cexFastShape2 = true ↔
        (specIntersects (centerDist cexFastShape1 cexFastShape2)
            cexFastShape1.radius cexFastShape2.radius ∧
          1/1000 ≤ distSq cexFastShape1 cexFastShape2)) ∧
      (1/1000 ≤ distSq cexFastShape1 cexFastShape2 →
        (circlesIntersectFast cexFastShape1 cexFastShape2 = true ↔
          circlesIntersect cexFastShape1 cexFastShape2))) :=
  ⟨by norm_num [cexFastShape1], by norm_num [cexFastShape2],
    C1_intersection_predicates cexFastShape1 cexFastShape2
      (by norm_num [cexFastShape1]) (by norm_num [cexFastShape2])⟩

/-- C1 counterexample: two unit circles whose centers are 1/100 apart.  The
sqrt-based exact path reports an intersection while the squared-distance fast
path reports none, so the two paths do not return the same boolean for every
input pair. -/
theorem C1_counterexample :
    circlesIntersectFast cexFastShape1 cexFastShape2 = false ∧
      circlesIntersect cexFastShape1 cexFastShape2 := by
  constructor
  · norm_num [circlesIntersectFast, distSq, cexFastShape1, cexFastShape2]
  · have hd : centerDist cexFastShape1 cexFastShape2 = 1/100 := by
      rw [centerDist]
      rw [show ((distSq cexFastShape1 cexFastShape2 : ℚ) : ℝ) = (1/100 : ℝ) ^ 2 by
        norm_num [distSq, cexFastShape1, cexFastShape2]]
      rw [Real.sqrt_sq (by norm_num)]
    unfold circlesIntersect
    rw [hd]
    norm_num [cexFastShape1, cexFastShape2]

/-- C7 (amended): for interfering colors (255,0,0) and (0,0,255) the spawned
atom color is the clamped additive mix (255,0,255) and the interference
energy is the sum of the two frequency speeds plus 0.4 times their absolute
difference, namely 110 + 0.4*50 = 130. -/
theorem C7_interference_color_energy :
    calculateInterferenceColor ⟨255, 0, 0⟩ ⟨0, 0, 255⟩ = ⟨255, 0, 255⟩ ∧
    calculateInterferenceEnergy ⟨255, 0, 0⟩ ⟨0, 0, 255⟩ =
      (calculateFrequencyBasedSpeed ⟨255, 0, 0⟩ + calculateFrequencyBasedSpeed ⟨0, 0, 255⟩) +
        |calculateFrequencyBasedSpeed ⟨255, 0, 0⟩ -
            calculateFrequencyBasedSpeed ⟨0, 0, 255⟩| * (2/5) ∧
    calculateInterferenceEnergy ⟨255, 0, 0⟩ ⟨0, 0, 255⟩ = 130 := by
  refine ⟨rfl, rfl, ?_⟩
  norm_num [calculateInterferenceEnergy, calculateFrequencyBasedSpeed]

/-- C7 counterexample: with half (0.5) of the frequency difference, as the
claim states, the energy would be 135; the code computes 130 (it adds 0.4 of
the difference, AtomManager.cpp:212). -/
theorem C7_counterexample :
    calculateInterferenceEnergy ⟨255, 0, 0⟩ ⟨0, 0, 255⟩ ≠
      (calculateFrequencyBasedSpeed ⟨255, 0, 0⟩ + calculateFrequencyBasedSpeed ⟨0, 0, 255⟩) +
        |calculateFrequencyBasedSpeed ⟨255, 0, 0⟩ -
            calculateFrequencyBasedSpeed ⟨0, 0, 255⟩| * (1/2) := by
  norm_num [calculateInterferenceEnergy, calculateFrequencyBasedSpeed]

theorem spawnSeq_append (l : List α) (a : α) :
    spawnSeq (l ++ [a]) = (spawnSeq l).add a := by
  simp [spawnSeq, List.foldl_append]

theorem spawnSeq_atoms_length (l : List α) :
    (spawnSeq l).atoms.length = MAX_ATOMS := by
  induction l using List.reverseRecOn with
  | nil => simp [spawnSeq, AtomPool.init]
  | append_singleton l a ih => simp [spawnSeq_append, AtomPool.add, ih]

theorem spawnSeq_nextSlot (l : List α) :
    (spawnSeq l).nextSlot = l.length % MAX_ATOMS := by
  induction l using List.reverseRecOn with
  | nil => simp [spawnSeq, AtomPool.init]
  | append_singleton l a ih =>
      simp only [spawnSeq_append, AtomPool.add, ih, List.length_append,
        List.length_singleton, MAX_ATOMS]
      omega

theorem spawnSeq_atomCount (l : List α) :
    (spawnSeq l).atomCount = min l.length MAX_ATOMS := by
  induction l using List.reverseRecOn with
  | nil => simp [spawnSeq, AtomPool.init]
  | append_singleton l a ih =>
      simp only [spawnSeq_append, AtomPool.add, ih, List.length_append,
        List.length_singleton, MAX_ATOMS]
      split_ifs <;> omega

theorem occupant_succ (n j : ℕ) (hj : j < MAX_ATOMS) :
    occupant (n + 1) j = if j = n % MAX_ATOMS then some n else occupant n j := by
  unfold occupant
  simp only [MAX_ATOMS] at hj ⊢
  by_cases h : j = n % 35
  · have hle : ¬ (n + 1 ≤ j) := by omega
    rw [if_neg hle, if_pos h]
    have h1 : n + 1 - 1 - j = 35 * (n / 35) := by omega
    rw [h1, Nat.mul_div_cancel_left _ (by norm_num : 0 < 35)]
    have h2 : j + 35 * (n / 35) = n := by omega
    rw [h2]
  · rw [if_neg h]
    by_cases h2 : n ≤ j
    · have h3 : n + 1 ≤ j := by omega
      rw [if_pos h3, if_pos h2]
    · have h3 : ¬ (n + 1 ≤ j) := by omega
      rw [if_neg h3, if_neg h2]
      have e1 : n + 1 - 1 - j = n - 1 - j + 1 := by omega
      rw [e1, Nat.succ_div]
      have hnd : ¬ (35 ∣ (n - 1 - j + 1)) := by omega
      simp [hnd, Nat.mul_add]

theorem occupant_lt (n j m : ℕ) (_hj : j < MAX_ATOMS) (h : occupant n j = some m) :
    m < n := by
  unfold occupant at h
  simp only [MAX_ATOMS] at *
  by_cases h2 : n ≤ j
  · simp [h2] at h
  · simp only [h2, ite_false, Option.some.injEq] at h
    omega

theorem spawnSeq_getElem (l : List α) (j : ℕ) (hj : j < MAX_ATOMS) :
    (spawnSeq l).atoms[j]? =
      some ((occupant l.length j).bind (fun m => l[m]?)) := by
  induction l using List.reverseRecOn with
  | nil =>
      simp only [spawnSeq, List.foldl_nil, AtomPool.init, occupant, Nat.zero_le,
        ite_true, Option.bind, List.length_nil]
      simp [List.getElem?_replicate_of_lt hj]
  | append_singleton l a ih =>
      have hlen := spawnSeq_atoms_length l
      have hslot := spawnSeq_nextSlot l
      have hmod : l.length % MAX_ATOMS < MAX_ATOMS := by
        simp only [MAX_ATOMS]; omega
      rw [spawnSeq_append]
      simp only [AtomPool.add, List.length_append, List.length_singleton]
      rw [occupant_succ l.length j hj]
      by_cases h : j = l.length % MAX_ATOMS
      · rw [hslot, ← h, List.getElem?_set_self (by rw [hlen]; exact hj)]
        simp only [h, ite_true]
        simp [List.getElem?_concat_length]
      · rw [hslot, List.getElem?_set_ne (by omega)]
        rw [ih]
        simp only [h, ite_false]
        congr 1
        cases hocc : occupant l.length j with
        | none => simp
        | some m =>
            have hm := occupant_lt l.length j m hj hocc
            simp [List.getElem?_append_left hm]

/-- C3: the atom pool's slot array always has exactly MAX_ATOMS = 35 slots and
the saturating count never exceeds 35; a spawn is never rejected (the new atom
is always written at the cursor slot); and once 35 or more atoms have been
spawned, the slot the next spawn overwrites holds the atom from exactly 35
spawns ago, which is the oldest spawn still surviving in the pool. -/
theorem C3_atom_pool_fifo (α : Type) (l : List α) (a : α) (hn : MAX_ATOMS ≤ l.length) :
    (∀ m : List α, (spawnSeq m).atoms.length = MAX_ATOMS ∧
      (spawnSeq m).atomCount ≤ MAX_ATOMS) ∧
    (spawnSeq l).atomCount = MAX_ATOMS ∧
    ((spawnSeq l).add a).atoms[(spawnSeq l).nextSlot]? = some (some a) ∧
    (spawnSeq l).atoms[(spawnSeq l).nextSlot]? =
      some (l[l.length - MAX_ATOMS]?) ∧
    (∀ j, j < MAX_ATOMS →
      (spawnSeq l).atoms[j]? = some ((occupant l.length j).bind (fun m => l[m]?)) ∧
      ∀ m, occupant l.length j = some m →
        l.length - MAX_ATOMS ≤ m ∧ m < l.length) := by
  have hmod : l.length % MAX_ATOMS < MAX_ATOMS := by
    simp only [MAX_ATOMS]; omega
  refine ⟨?_, ?_, ?_, ?_, ?_⟩
  · intro m
    refine ⟨spawnSeq_atoms_length m, ?_⟩
    rw [spawnSeq_atomCount]
    omega
  · rw [spawnSeq_atomCount]
    omega
  · simp only [AtomPool.add]
    rw [List.getElem?_set_self]
    rw [spawnSeq_atoms_length, spawnSeq_nextSlot]
    exact hmod
  · rw [spawnSeq_nextSlot, spawnSeq_getElem l _ hmod]
    have hocc : occupant l.length (l.length % MAX_ATOMS) =
        some (l.length - MAX_ATOMS) := by
      unfold occupant
      simp only [MAX_ATOMS] at *
      have : ¬ (l.length ≤ l.length % 35) := by omega
      simp only [this, ite_false, Option.some.injEq]
      omega
    rw [hocc]
    simp
  · intro j hj
    refine ⟨spawnSeq_getElem l j hj, ?_⟩
    intro m hocc
    have hlt := occupant_lt l.length j m hj hocc
    unfold occupant at hocc
    simp only [MAX_ATOMS] at *
    by_cases h2 : l.length ≤ j
    · simp [h2] at hocc
    · simp only [h2, ite_false, Option.some.injEq] at hocc
      omega

/-- Witness for C3_atom_pool_fifo with 35 concrete spawns. -/
theorem C3_atom_pool_fifo_witness :
    MAX_ATOMS ≤ (List.range 35).length ∧
    ((spawnSeq (List.range 35)).atomCount = MAX_ATOMS ∧
      ((spawnSeq (List.range 35)).add 99).atoms[(spawnSeq (List.range 35)).nextSlot]? =
        some (some 99)) :=
  ⟨by simp [MAX_ATOMS],
    (C3_atom_pool_fifo ℕ (List.range 35) 99 (by simp [MAX_ATOMS])).2.1,
    (C3_atom_pool_fifo ℕ (List.range 35) 99 (by simp [MAX_ATOMS])).2.2.1⟩

theorem countsTowardCapacity_of_stable (q : Proton)
    (hstable : q.stableHydrogen = true ∨ q.isStableHelium4 = true) :
    countsTowardCapacity (some q) = false := by
  rcases hstable with h | h <;> simp [countsTowardCapacity, h]

theorem getProtonCount_set_none (pool : List (Option Proton)) (i : ℕ) (q : Proton)
    (hq : pool[i]? = some (some q))
    (hc : countsTowardCapacity (some q) = false) :
    getProtonCount (pool.set i none) = getProtonCount pool := by
  induction pool generalizing i with
  | nil => simp at hq
  | cons s rest ih =>
      cases i with
      | zero =>
          simp only [List.getElem?_cons_zero, Option.some.injEq] at hq
          subst hq
          rw [List.set_cons_zero]
          unfold getProtonCount
          have hnone : countsTowardCapacity none = false := rfl
          simp [List.countP_cons, hc, hnone]
      | succ i =>
          simp only [List.getElem?_cons_succ] at hq
          simp only [List.set_cons_succ, getProtonCount, List.countP_cons]
          have := ih i hq
          simp only [getProtonCount] at this
          omega

/-- C4: when the count of non-stable live protons equals MAX_PROTONS,
spawnProton leaves the pool unchanged; a slot holding a stable-hydrogen or
Helium-4 proton survives clear() unchanged; and removing such a stable slot
does not change the capacity count (stable particles are never counted). -/
theorem C4_proton_capacity_stables (pool : ProtonPool)
    (posX posY velX velY : ℚ) (c : Color) (energy : ℚ) (charge : ℤ)
    (i : ℕ) (q : Proton)
    (hq : pool[i]? = some (some q))
    (hstable : q.stableHydrogen = true ∨ q.isStableHelium4 = true) :
    (getProtonCount pool = MAX_PROTONS →
      spawnProton pool posX posY velX velY c energy charge = pool) ∧
    (protonClear pool)[i]? = some (some q) ∧
    getProtonCount (pool.set i none) = getProtonCount pool := by
  refine ⟨?_, ?_, ?_⟩
  · intro h
    unfold spawnProton
    rw [h]
    simp
  · unfold protonClear
    rw [List.getElem?_map, hq]
    rcases hstable with h | h <;> simp [h]
  · exact getProtonCount_set_none pool i q hq (countsTowardCapacity_of_stable q hstable)

/-- A sample stable-hydrogen proton for the C4 witness. -/
def stableHydrogenSample : Proton :=
  { Proton.spawn 0 0 0 0 ⟨255, 255, 255⟩ 10 0 with
      stableHydrogen := true, charge := 0, neutronCount := 1, maxLifetime := -1 }

/-- A sample live non-stable proton for the C4 witness. -/
def activeProtonSample : Proton :=
  Proton.spawn 1 2 3 4 ⟨255, 255, 255⟩ 50 1

/-- A pool at capacity that also holds one stable-hydrogen proton. -/
def witnessPool : ProtonPool :=
  some stableHydrogenSample :: List.replicate 75 (some activeProtonSample)

/-- Witness for C4_proton_capacity_stables on a concrete full pool. -/
theorem C4_proton_capacity_stables_witness :
    witnessPool[0]? = some (some stableHydrogenSample) ∧
    stableHydrogenSample.stableHydrogen = true ∧
    getProtonCount witnessPool = MAX_PROTONS ∧
    (spawnProton witnessPool 0 0 0 0 ⟨255, 255, 255⟩ 5 1 = witnessPool ∧
      (protonClear witnessPool)[0]? = some (some stableHydrogenSample) ∧
      getProtonCount (witnessPool.set 0 none) = getProtonCount witnessPool) := by
  have hq : witnessPool[0]? = some (some stableHydrogenSample) := rfl
  have hst : stableHydrogenSample.stableHydrogen = true := rfl
  have hcount : getProtonCount witnessPool = MAX_PROTONS := by
    have h1 : countsTowardCapacity (some stableHydrogenSample) = false := rfl
    have h2 : countsTowardCapacity (some activeProtonSample) = true := rfl
    simp [witnessPool, getProtonCount, List.countP_cons, List.countP_replicate,
      h1, h2, MAX_PROTONS]
  have hmain := C4_proton_capacity_stables witnessPool 0 0 0 0 ⟨255, 255, 255⟩ 5 1
    0 stableHydrogenSample hq (Or.inl hst)
  exact ⟨hq, hst, hcount, hmain.1 hcount, hmain.2.1, hmain.2.2⟩

theorem writeFirstFree_getElem (pool : List (Option Proton)) (p : Proton) (i : ℕ) :
    (writeFirstFree pool p)[i]? = pool[i]? ∨
      ((writeFirstFree pool p)[i]? = some (some p) ∧
        (pool[i]? = some none ∨
          ∃ q, pool[i]? = some (some q) ∧ q.isAlive = false)) := by
  induction pool generalizing i with
  | nil => left; rfl
  | cons s rest ih =>
      unfold writeFirstFree
      by_cases hfree : (match s with | none => true | some q => !q.isAlive) = true
      · rw [if_pos hfree]
        cases i with
        | zero =>
            right
            refine ⟨by simp, ?_⟩
            cases s with
            | none => left; simp
            | some q =>
                right
                refine ⟨q, by simp, ?_⟩
                simpa using hfree
        | succ i => left; simp
      · rw [if_neg hfree]
        cases i with
        | zero => left; simp
        | succ i =>
            rcases ih i with h | ⟨h1, h2⟩
            · left; simpa using h
            · right
              constructor
              · simpa using h1
              · simpa using h2

/-- C10: spawnProton never destroys a live proton.  Every slot holding a live
proton is unchanged by the spawn, and any slot the spawn does change was
previously empty or held a non-alive proton. -/
theorem C10_spawn_preserves_live (pool : ProtonPool)
    (posX posY velX velY : ℚ) (c : Color) (energy : ℚ) (charge : ℤ) :
    (∀ (i : ℕ) (q : Proton), pool[i]? = some (some q) → q.isAlive = true →
      (spawnProton pool posX posY velX velY c energy charge)[i]? = some (some q)) ∧
    (∀ i : ℕ, (spawnProton pool posX posY velX velY c energy charge)[i]? ≠ pool[i]? →
      pool[i]? = some none ∨
        ∃ q : Proton, pool[i]? = some (some q) ∧ q.isAlive = false) := by
  unfold spawnProton
  by_cases hcap : MAX_PROTONS ≤ getProtonCount pool
  · rw [if_pos hcap]
    exact ⟨fun i q hq _ => hq, fun i hne => absurd rfl hne⟩
  · rw [if_neg hcap]
    constructor
    · intro i q hq halive
      rcases writeFirstFree_getElem pool
        (Proton.spawn posX posY velX velY c energy charge) i with h | ⟨_, h2⟩
      · rw [h, hq]
      · rcases h2 with h3 | ⟨q2, h3, hdead⟩
        · rw [hq] at h3; cases h3
        · rw [hq] at h3
          obtain rfl : q = q2 := by injection h3 with h4; injection h4
          rw [halive] at hdead; cases hdead
    · intro i hne
      rcases writeFirstFree_getElem pool
        (Proton.spawn posX posY velX velY c energy charge) i with h | ⟨_, h2⟩
      · exact absurd h hne
      · exact h2

/-- C5: for a colliding deuterium/bare-proton pair (with the masses the code
maintains, proportional to energy, and positive total energy), fusion fires
iff the relative speed strictly exceeds the threshold (boundary-exclusive),
and the produced Helium-3 has momentum equal to the pre-collision total
momentum, position at the mass-weighted center of mass, charge +1 and
neutron count 2. -/
theorem C5_deuterium_fusion (p1 p2 : Proton)
    (hpair : deuteriumProtonPair p1 p2) (hcol : protonsColliding p1 p2)
    (hm1 : p1.mass = calculateMass p1.energy)
    (hm2 : p2.mass = calculateMass p2.energy)
    (hE : 0 < p1.energy + p2.energy) :
    (deuteriumFusionTriggers p1 p2 ↔
      ((DEUTERIUM_FUSION_VELOCITY_THRESHOLD : ℚ) : ℝ) < relSpeed p1 p2) ∧
    (relSpeed p1 p2 = ((DEUTERIUM_FUSION_VELOCITY_THRESHOLD : ℚ) : ℝ) →
      ¬ deuteriumFusionTriggers p1 p2) ∧
    (he3Fusion p1 p2).mass * (he3Fusion p1 p2).velX =
      p1.mass * p1.velX + p2.mass * p2.velX ∧
    (he3Fusion p1 p2).mass * (he3Fusion p1 p2).velY =
      p1.mass * p1.velY + p2.mass * p2.velY ∧
    (he3Fusion p1 p2).posX =
      (p1.posX * p1.mass + p2.posX * p2.mass) / (p1.mass + p2.mass) ∧
    (he3Fusion p1 p2).posY =
      (p1.posY * p1.mass + p2.posY * p2.mass) / (p1.mass + p2.mass) ∧
    (he3Fusion p1 p2).charge = 1 ∧ (he3Fusion p1 p2).neutronCount = 2 := by
  have htot : p1.mass + p2.mass = (p1.energy + p2.energy) * (1/10) := by
    rw [hm1, hm2, calculateMass, calculateMass]; ring
  have hne : p1.mass + p2.mass ≠ 0 := by
    rw [htot]
    exact ne_of_gt (mul_pos hE (by norm_num))
  have hmassHe3 : (he3Fusion p1 p2).mass = (p1.energy + p2.energy) * (1/10) := rfl
  refine ⟨?_, ?_, ?_, ?_, rfl, rfl, rfl, rfl⟩
  · constructor
    · exact fun h => h.2.2
    · exact fun h => ⟨hcol, hpair, h⟩
  · intro heq htrig
    have h3 := htrig.2.2
    rw [heq] at h3
    exact lt_irrefl _ h3
  · show calculateMass (p1.energy + p2.energy) *
      ((p1.velX * p1.mass + p2.velX * p2.mass) / (p1.mass + p2.mass)) = _
    rw [calculateMass, ← htot, mul_comm, div_mul_cancel₀ _ hne]
    ring
  · show calculateMass (p1.energy + p2.energy) *
      ((p1.velY * p1.mass + p2.velY * p2.mass) / (p1.mass + p2.mass)) = _
    rw [calculateMass, ← htot, mul_comm, div_mul_cancel₀ _ hne]
    ring

/-- A deuterium sample (charge 0, one neutron) for the C5 witness. -/
def deuteriumSample : Proton :=
  { Proton.spawn 0 0 0 0 ⟨200, 200, 200⟩ 10 0 with neutronCount := 1 }

/-- A bare-proton sample (charge +1, no neutron) for the C5 witness. -/
def bareSample : Proton :=
  Proton.spawn 1 0 50 0 ⟨255, 255, 255⟩ 10 1

/-- Witness for C5_deuterium_fusion on a concrete colliding pair. -/
theorem C5_deuterium_fusion_witness :
    deuteriumProtonPair deuteriumSample bareSample ∧
    protonsColliding deuteriumSample bareSample ∧
    0 < deuteriumSample.energy + bareSample.energy ∧
    ((he3Fusion deuteriumSample bareSample).charge = 1 ∧
      (he3Fusion deuteriumSample bareSample).neutronCount = 2 ∧
      (he3Fusion deuteriumSample bareSample).mass *
          (he3Fusion deuteriumSample bareSample).velX =
        deuteriumSample.mass * deuteriumSample.velX +
          bareSample.mass * bareSample.velX) := by
  have hpair : deuteriumProtonPair deuteriumSample bareSample :=
    Or.inl ⟨rfl, rfl, rfl, rfl⟩
  have hcol : protonsColliding deuteriumSample bareSample := by
    norm_num [protonsColliding, deuteriumSample, bareSample, Proton.spawn,
      calculateRadius]
  have hE : (0:ℚ) < deuteriumSample.energy + bareSample.energy := by
    norm_num [deuteriumSample, bareSample, Proton.spawn]
  have hmain := C5_deuterium_fusion deuteriumSample bareSample hpair hcol rfl rfl hE
  exact ⟨hpair, hcol, hE, hmain.2.2.2.2.2.2.1, hmain.2.2.2.2.2.2.2, hmain.2.2.1⟩

theorem cumNear_append (l : List (ℚ × Bool)) (x : ℚ × Bool) :
    cumNear (l ++ [x]) = if x.2 then cumNear l + x.1 else 0 := by
  simp [cumNear, List.foldl_append]

theorem runNF_append (p : Proton) (l : List (ℚ × Bool)) (x : ℚ × Bool) :
    runNF p (l ++ [x]) = tryNeutronFormation (runNF p l) x.1 x.2 := by
  simp [runNF, List.foldl_append]

theorem take_append_singleton_of_le (l : List (ℚ × Bool)) (x : ℚ × Bool)
    (k : ℕ) (hk : k ≤ l.length) : (l ++ [x]).take k = l.take k := by
  rw [List.take_append_eq_append_take]
  simp [Nat.sub_eq_zero_of_le hk]

theorem reachedB_append (l : List (ℚ × Bool)) (x : ℚ × Bool) :
    reachedB (l ++ [x]) =
      (reachedB l || decide (NEUTRON_FORMATION_TIME ≤ cumNear (l ++ [x]))) := by
  unfold reachedB
  rw [Bool.eq_iff_iff]
  simp only [List.length_append, List.length_singleton, List.any_eq_true,
    List.mem_range, Bool.or_eq_true, decide_eq_true_eq]
  constructor
  · rintro ⟨k, hk, hc⟩
    by_cases hkl : k < l.length
    · left
      refine ⟨k, hkl, ?_⟩
      rwa [take_append_singleton_of_le l x (k+1) (by omega)] at hc
    · right
      have hkeq : k = l.length := by omega
      subst hkeq
      rwa [List.take_of_length_le (by simp)] at hc
  · rintro (⟨k, hk, hc⟩ | hc)
    · exact ⟨k, by omega,
        by rwa [take_append_singleton_of_le l x (k+1) (by omega)]⟩
    · exact ⟨l.length, by omega, by rwa [List.take_of_length_le (by simp)]⟩

theorem runNF_char (p : Proton) (hq : p.charge = 1) (hw : p.waveFieldTimer = 0)
    (ticks : List (ℚ × Bool)) :
    (reachedB ticks = false →
      (runNF p ticks).charge = 1 ∧
      (runNF p ticks).neutronCount = p.neutronCount ∧
      (runNF p ticks).waveFieldTimer = cumNear ticks) ∧
    (reachedB ticks = true →
      (runNF p ticks).charge = 0 ∧ (runNF p ticks).neutronCount = 1) := by
  induction ticks using List.reverseRecOn with
  | nil =>
      refine ⟨fun _ => ⟨hq, rfl, ?_⟩, fun h => ?_⟩
      · simpa [runNF, cumNear] using hw
      · simp [reachedB] at h
  | append_singleton l x ih =>
      rcases Bool.eq_false_or_eq_true (reachedB l) with hr | hr
      · obtain ⟨hc0, hn1⟩ := ih.2 hr
        constructor
        · intro h
          rw [reachedB_append, hr] at h
          simp at h
        · intro _
          rw [runNF_append]
          constructor <;> simp [tryNeutronFormation, hc0, hn1]
      · obtain ⟨hc1, hn1, hw1⟩ := ih.1 hr
        by_cases hx : x.2 = true
        · by_cases ht : NEUTRON_FORMATION_TIME ≤ cumNear l + x.1
          · constructor
            · intro h
              rw [reachedB_append, hr, cumNear_append] at h
              simp [hx, ht] at h
            · intro _
              rw [runNF_append]
              constructor <;> simp [tryNeutronFormation, hc1, hx, hw1, ht]
          · constructor
            · intro _
              rw [runNF_append, cumNear_append]
              refine ⟨?_, ?_, ?_⟩ <;>
                simp [tryNeutronFormation, hc1, hx, hw1, ht, hn1]
            · intro h
              rw [reachedB_append, hr, cumNear_append] at h
              simp [hx, ht] at h
        · have hx2 : x.2 = false := by simpa using hx
          constructor
          · intro _
            rw [runNF_append, cumNear_append]
            refine ⟨?_, ?_, ?_⟩ <;>
              simp [tryNeutronFormation, hc1, hx2, hn1]
          · intro h
            rw [reachedB_append, hr, cumNear_append] at h
            simp only [hx2, Bool.false_or, ite_false, decide_eq_true_eq] at h
            norm_num [NEUTRON_FORMATION_TIME] at h

/-- C6: starting from a bare proton (charge +1, no neutron, zero timer) and
running any sequence of ticks, the proton is still bare with its timer equal
to the cumulative (reset-on-not-near) near-time as long as no prefix of the
run has reached the 0.5s threshold, and it has become deuterium (charge 0,
neutron count 1) exactly when some tick first brought the cumulative
near-time to at least 0.5s; moreover any not-near tick resets the timer to
zero. -/
theorem C6_neutron_formation_timing (p : Proton) (hq : p.charge = 1)
    (hn : p.neutronCount = 0) (hw : p.waveFieldTimer = 0)
    (ticks : List (ℚ × Bool)) :
    (reachedB ticks = false →
      (runNF p ticks).charge = 1 ∧ (runNF p ticks).neutronCount = 0 ∧
      (runNF p ticks).waveFieldTimer = cumNear ticks) ∧
    (reachedB ticks = true →
      (runNF p ticks).charge = 0 ∧ (runNF p ticks).neutronCount = 1) ∧
    (∀ (q : Proton) (dt : ℚ), q.charge = 1 →
      (tryNeutronFormation q dt false).waveFieldTimer = 0) := by
  obtain ⟨h1, h2⟩ := runNF_char p hq hw ticks
  refine ⟨fun hr => ?_, h2, fun q dt hqc => ?_⟩
  · obtain ⟨a, b, c⟩ := h1 hr
    exact ⟨a, by rw [b, hn], c⟩
  · simp [tryNeutronFormation, hqc]

/-- A freshly spawned bare proton for the C6 witness. -/
def bareProtonSample : Proton :=
  Proton.spawn 0 0 0 0 ⟨255, 255, 255⟩ 10 1

/-- Two near ticks of 0.3s and 0.2s whose cumulative near-time reaches the
0.5s threshold exactly on the second tick. -/
def nfTicks : List (ℚ × Bool) := [(3/10, true), (2/10, true)]

/-- Witness for C6_neutron_formation_timing on a concrete run. -/
theorem C6_neutron_formation_timing_witness :
    bareProtonSample.charge = 1 ∧ bareProtonSample.neutronCount = 0 ∧
    bareProtonSample.waveFieldTimer = 0 ∧ reachedB nfTicks = true ∧
    ((runNF bareProtonSample nfTicks).charge = 0 ∧
      (runNF bareProtonSample nfTicks).neutronCount = 1) := by
  have hre : reachedB nfTicks = true := by
    norm_num [reachedB, nfTicks, cumNear, NEUTRON_FORMATION_TIME,
      List.range_succ]
  exact ⟨rfl, rfl, rfl, hre,
    (C6_neutron_formation_timing bareProtonSample rfl rfl rfl nfTicks).2.1 hre⟩

theorem atom_update_marked (a : Atom) (dt : ℚ) (shapes : List RingShape) :
    (a.update dt shapes).markedForDeletion = a.markedForDeletion := by
  unfold Atom.update
  split
  · rfl
  · dsimp only
    split
    · rfl
    · split <;> (try split) <;> rfl

theorem atom_update_valid (a : Atom) (dt : ℚ) (shapes : List RingShape) :
    (a.update dt shapes).hasValidShapes = true → a.hasValidShapes = true := by
  unfold Atom.update
  split
  · exact id
  · dsimp only
    split
    · exact id
    · split <;> (try split) <;> first | exact id | (intro h; cases h)

theorem atom_update_flag (a : Atom) (dt : ℚ) (shapes : List RingShape) :
    (a.update dt shapes).isAliveFlag = true → a.isAliveFlag = true := by
  unfold Atom.update
  split
  · exact id
  · dsimp only
    split
    · intro h; cases h
    · split <;> (try split) <;> first | exact id | (intro h; cases h)

/-- C9 (amended): once the internal alive flag of a PathFollowingAtom is
down, update is the identity on the whole state; isAlive() false is permanent
(an update can never revive an atom) and markForDeletion is never undone.
However, an atom that is dead only through markForDeletion (flag still up)
keeps mutating its lifetime and position until an internal death condition
fires, so dead atoms are not inert in general. -/
theorem C9_death_permanence (a : Atom) (dt : ℚ) (shapes : List RingShape) :
    (a.isAliveFlag = false → a.update dt shapes = a) ∧
    (a.isAliveP = false → (a.update dt shapes).isAliveP = false) ∧
    (a.markedForDeletion = true → (a.update dt shapes).markedForDeletion = true) := by
  refine ⟨?_, ?_, ?_⟩
  · intro h
    unfold Atom.update
    rw [h]
    rfl
  · intro h
    unfold Atom.isAliveP at h ⊢
    by_cases h1 : (a.update dt shapes).isAliveFlag = true
    · have h2 := atom_update_flag a dt shapes h1
      by_cases h3 : (a.update dt shapes).hasValidShapes = true
      · have h4 := atom_update_valid a dt shapes h3
        rw [h2, h4] at h
        simp only [Bool.true_and] at h
        rw [atom_update_marked, h1, h3]
        simpa using h
      · have h4 : (a.update dt shapes).hasValidShapes = false :=
          Bool.eq_false_iff.mpr h3
        rw [h1, h4]
        rfl
    · have h2 : (a.update dt shapes).isAliveFlag = false :=
        Bool.eq_false_iff.mpr h1
      rw [h2]
      rfl
  · intro h
    rw [atom_update_marked, h]

/-- An atom dead only through markForDeletion: the internal alive flag is
still up. -/
noncomputable def deadMarkedAtom : Atom :=
  { curX := 0, curY := 0, prevX := 0, prevY := 0, color := ⟨255, 0, 255⟩
    radius := 2, energy := 10, lifetime := 0, maxLifetime := 5
    isAliveFlag := true, markedForDeletion := true, pulseTimer := 0
    fadeStartTime := 7/2, shape1 := cexFastShape1, shape2 := cexFastShape2
    hasValidShapes := true }

/-- An atom whose internal alive flag is down. -/
noncomputable def deadFlagAtom : Atom :=
  { deadMarkedAtom with isAliveFlag := false }

/-- Witness for C9_death_permanence at a concrete dead atom. -/
theorem C9_death_permanence_witness :
    deadFlagAtom.isAliveFlag = false ∧ deadFlagAtom.isAliveP = false ∧
    deadFlagAtom.markedForDeletion = true ∧
    (deadFlagAtom.update 1 [] = deadFlagAtom ∧
      (deadFlagAtom.update 1 []).isAliveP = false ∧
      (deadFlagAtom.update 1 []).markedForDeletion = true) :=
  ⟨rfl, rfl, rfl,
    (C9_death_permanence deadFlagAtom 1 []).1 rfl,
    (C9_death_permanence deadFlagAtom 1 []).2.1 rfl,
    (C9_death_permanence deadFlagAtom 1 []).2.2 rfl⟩

/-- C9 counterexample: an atom that is dead for isAlive() (marked for
deletion) but whose internal alive flag is still up changes its observable
lifetime on the next update, refuting that every subsequent update leaves a
dead atom's observable state unchanged. -/
theorem C9_counterexample :
    deadMarkedAtom.isAliveP = false ∧
    (deadMarkedAtom.update 10 []).lifetime ≠ deadMarkedAtom.lifetime := by
  constructor
  · rfl
  · have hstep : (deadMarkedAtom.update 10 []).lifetime = 10 := by
      unfold Atom.update
      rw [if_neg (by norm_num [deadMarkedAtom])]
      dsimp only
      rw [if_pos (by norm_num [deadMarkedAtom])]
      norm_num [deadMarkedAtom]
    rw [hstep]
    norm_num [deadMarkedAtom]

theorem keyHalf_congr (a b : RingShape) (h : shapeIdEq a b = true) :
    keyHalf a = keyHalf b := by
  simp only [shapeIdEq, Bool.and_eq_true, decide_eq_true_eq] at h
  simp [keyHalf, h.1, h.2]

theorem createIntersectionKey_eq (s1 s2 : RingShape) :
    createIntersectionKey s1 s2 =
      if s2.sourceRing < s1.sourceRing ∨
          (s1.sourceRing = s2.sourceRing ∧ s2.bounceIndex < s1.bounceIndex) then
        keyHalf s2 * 2 ^ 32 + keyHalf s1
      else keyHalf s1 * 2 ^ 32 + keyHalf s2 := by
  unfold createIntersectionKey
  by_cases hc : s2.sourceRing < s1.sourceRing ∨
      (s1.sourceRing = s2.sourceRing ∧ s2.bounceIndex < s1.bounceIndex)
  · rw [if_pos hc]
    rcases hc with h | ⟨he, hb⟩
    · simp [h]
    · simp [he, hb]
  · rw [if_neg hc]
    have hl : ¬ (s2.sourceRing < s1.sourceRing) := fun hl => hc (Or.inl hl)
    by_cases he : s1.sourceRing = s2.sourceRing
    · have hb : ¬ (s2.bounceIndex < s1.bounceIndex) :=
        fun hb => hc (Or.inr ⟨he, hb⟩)
      simp [hl, he, hb]
    · simp [hl, he]

theorem createIntersectionKey_congr (a1 a2 b1 b2 : RingShape)
    (h1 : shapeIdEq a1 b1 = true) (h2 : shapeIdEq a2 b2 = true) :
    createIntersectionKey a1 a2 = createIntersectionKey b1 b2 := by
  have ha := keyHalf_congr a1 b1 h1
  have hb := keyHalf_congr a2 b2 h2
  simp only [shapeIdEq, Bool.and_eq_true, decide_eq_true_eq] at h1 h2
  rw [createIntersectionKey_eq, createIntersectionKey_eq,
    h1.1, h1.2, h2.1, h2.2, ha, hb]

theorem createIntersectionKey_symm (s1 s2 : RingShape) :
    createIntersectionKey s1 s2 = createIntersectionKey s2 s1 := by
  rw [createIntersectionKey_eq, createIntersectionKey_eq]
  rcases lt_trichotomy s1.sourceRing s2.sourceRing with h | h | h
  · rw [if_neg (by omega), if_pos (by omega)]
  · rcases lt_trichotomy s1.bounceIndex s2.bounceIndex with hb | hb | hb
    · rw [if_neg (by omega), if_pos (by omega)]
    · have hk : keyHalf s1 = keyHalf s2 :=
        keyHalf_congr s1 s2 (by simp [shapeIdEq, h, hb])
      rw [if_neg (by omega), if_neg (by omega), hk]
    · rw [if_pos (by omega), if_neg (by omega)]
  · rw [if_pos (by omega), if_neg (by omega)]

theorem key_eq_of_samePairId (c p : RingShape × RingShape)
    (h : samePairId c p = true) :
    createIntersectionKey c.1 c.2 = createIntersectionKey p.1 p.2 := by
  simp only [samePairId, Bool.or_eq_true, Bool.and_eq_true] at h
  rcases h with ⟨h1, h2⟩ | ⟨h1, h2⟩
  · exact createIntersectionKey_congr c.1 c.2 p.1 p.2 h1 h2
  · rw [createIntersectionKey_congr c.1 c.2 p.2 p.1 h1 h2]
    exact createIntersectionKey_symm p.2 p.1

theorem check_tracked_mono (st : AMState) (s1 s2 : RingShape) (winW winH : ℕ)
    (k : ℕ) (hk : k ∈ st.tracked) :
    k ∈ (checkShapePairForNewIntersection st s1 s2 winW winH).1.tracked := by
  unfold checkShapePairForNewIntersection
  dsimp only
  split_ifs <;> simp [hk]

theorem check_spawn_false_of_tracked (st : AMState) (s1 s2 : RingShape)
    (winW winH : ℕ)
    (hk : createIntersectionKey s1 s2 ∈ st.tracked) :
    (checkShapePairForNewIntersection st s1 s2 winW winH).2 = false := by
  unfold checkShapePairForNewIntersection
  dsimp only
  split_ifs
  all_goals rfl

theorem check_spawn_inserts (st : AMState) (s1 s2 : RingShape) (winW winH : ℕ)
    (h : (checkShapePairForNewIntersection st s1 s2 winW winH).2 = true) :
    createIntersectionKey s1 s2 ∈
      (checkShapePairForNewIntersection st s1 s2 winW winH).1.tracked := by
  unfold checkShapePairForNewIntersection at h ⊢
  dsimp only at h ⊢
  split_ifs at h ⊢
  all_goals simp_all

theorem spawnsForPair_eq_zero (st : AMState)
    (calls : List (RingShape × RingShape)) (winW winH : ℕ)
    (p : RingShape × RingShape)
    (hk : createIntersectionKey p.1 p.2 ∈ st.tracked) :
    spawnsForPair st calls winW winH p = 0 := by
  induction calls generalizing st with
  | nil => rfl
  | cons c rest ih =>
      have hrec := ih (checkShapePairForNewIntersection st c.1 c.2 winW winH).1
        (check_tracked_mono st c.1 c.2 winW winH _ hk)
      show (if (samePairId c p &&
          (checkShapePairForNewIntersection st c.1 c.2 winW winH).2) = true
        then 1 else 0) +
        spawnsForPair (checkShapePairForNewIntersection st c.1 c.2 winW winH).1
          rest winW winH p = 0
      by_cases hsp : samePairId c p = true
      · have hkey := key_eq_of_samePairId c p hsp
        have hk2 : createIntersectionKey c.1 c.2 ∈ st.tracked := by
          rw [hkey]; exact hk
        have hfalse := check_spawn_false_of_tracked st c.1 c.2 winW winH hk2
        rw [hfalse, hrec]
        simp
      · have hsp2 : samePairId c p = false := Bool.eq_false_iff.mpr hsp
        rw [hsp2, hrec]
        simp

/-- C8: atom spawning is idempotent per dedup interval.  Along any sequence
of pair-detection calls (with no periodic tracked-set clear in between),
starting from any manager state, at most one call spawns an atom for any
given (sourceRing, reflectionIndex) shape pair, counting detections of the
pair in either order (A,B) or (B,A). -/
theorem C8_dedup_idempotent (st : AMState)
    (calls : List (RingShape × RingShape)) (winW winH : ℕ)
    (p : RingShape × RingShape) :
    spawnsForPair st calls winW winH p ≤ 1 := by
  induction calls generalizing st with
  | nil => exact Nat.zero_le 1
  | cons c rest ih =>
      show (if (samePairId c p &&
          (checkShapePairForNewIntersection st c.1 c.2 winW winH).2) = true
        then 1 else 0) +
        spawnsForPair (checkShapePairForNewIntersection st c.1 c.2 winW winH).1
          rest winW winH p ≤ 1
      by_cases hs : (samePairId c p &&
          (checkShapePairForNewIntersection st c.1 c.2 winW winH).2) = true
      · obtain ⟨hsp, hspawn⟩ : samePairId c p = true ∧
            (checkShapePairForNewIntersection st c.1 c.2 winW winH).2 = true := by
          simpa using hs
        have hins := check_spawn_inserts st c.1 c.2 winW winH hspawn
        have hkey := key_eq_of_samePairId c p hsp
        have hins2 : createIntersectionKey p.1 p.2 ∈
            (checkShapePairForNewIntersection st c.1 c.2 winW winH).1.tracked := by
          rw [← hkey]; exact hins
        have hrest := spawnsForPair_eq_zero
          (checkShapePairForNewIntersection st c.1 c.2 winW winH).1 rest
          winW winH p hins2
        rw [hs, hrest]
        simp
      · have hs2 : (samePairId c p &&
            (checkShapePairForNewIntersection st c.1 c.2 winW winH).2) = false :=
          Bool.eq_false_iff.mpr hs
        rw [hs2]
        simpa using ih
          (checkShapePairForNewIntersection st c.1 c.2 winW winH).1

theorem mem_intRange (a b x : ℤ) : x ∈ intRange a b ↔ a ≤ x ∧ x ≤ b := by
  simp only [intRange, List.mem_map, List.mem_range]
  constructor
  · rintro ⟨k, hk, rfl⟩
    omega
  · rintro ⟨h1, h2⟩
    exact ⟨(x - a).toNat, by omega, by omega⟩

theorem mem_getNeighborCells (winW : ℕ) (cellSize : ℚ) (s : RingShape)
    (cx cy : ℤ)
    (hx1 : ⌊(s.centerX - s.radius) / cellSize⌋ ≤ cx)
    (hx2 : cx ≤ ⌊(s.centerX + s.radius) / cellSize⌋)
    (hy1 : ⌊(s.centerY - s.radius) / cellSize⌋ ≤ cy)
    (hy2 : cy ≤ ⌊(s.centerY + s.radius) / cellSize⌋) :
    cy * gridWidth winW cellSize + cx ∈ getNeighborCells winW cellSize s := by
  unfold getNeighborCells
  simp only [List.mem_flatMap, List.mem_map]
  exact ⟨cy, (mem_intRange _ _ _).mpr ⟨hy1, hy2⟩,
    cx, (mem_intRange _ _ _).mpr ⟨hx1, hx2⟩, rfl⟩

theorem mem_dedupPush (acc : List ℕ) (x y : ℕ) :
    y ∈ dedupPush acc x ↔ y ∈ acc ∨ y = x := by
  unfold dedupPush
  split_ifs with h
  · constructor
    · exact Or.inl
    · rintro (hy | rfl)
      · exact hy
      · exact h
  · simp

theorem nodup_dedupPush (acc : List ℕ) (x : ℕ) (h : acc.Nodup) :
    (dedupPush acc x).Nodup := by
  unfold dedupPush
  split_ifs with hx
  · exact h
  · refine List.Nodup.append h (by simp) ?_
    intro a ha hb
    simp only [List.mem_singleton] at hb
    subst hb
    exact hx ha

theorem mem_innerFold (i : ℕ) (l acc : List ℕ) (x : ℕ) :
    x ∈ l.foldl (fun acc2 j => if j = i then acc2 else dedupPush acc2 j) acc ↔
      x ∈ acc ∨ (x ∈ l ∧ x ≠ i) := by
  induction l generalizing acc with
  | nil => simp
  | cons a t ih =>
      rw [List.foldl_cons]
      by_cases ha : a = i
      · rw [if_pos ha, ih]
        subst ha
        constructor
        · rintro (h | ⟨hm, hne⟩)
          · exact Or.inl h
          · exact Or.inr ⟨List.mem_cons_of_mem _ hm, hne⟩
        · rintro (h | ⟨hm, hne⟩)
          · exact Or.inl h
          · rcases List.mem_cons.mp hm with rfl | hm2
            · exact absurd rfl hne
            · exact Or.inr ⟨hm2, hne⟩
      · rw [if_neg ha, ih]
        constructor
        · rintro (hd | ⟨hm, hne⟩)
          · rcases (mem_dedupPush acc a x).mp hd with h | rfl
            · exact Or.inl h
            · exact Or.inr ⟨List.mem_cons_self _ _, ha⟩
          · exact Or.inr ⟨List.mem_cons_of_mem _ hm, hne⟩
        · rintro (h | ⟨hm, hne⟩)
          · exact Or.inl ((mem_dedupPush acc a x).mpr (Or.inl h))
          · rcases List.mem_cons.mp hm with heq | hm2
            · exact Or.inl ((mem_dedupPush acc a x).mpr (Or.inr heq))
            · exact Or.inr ⟨hm2, hne⟩

theorem nodup_innerFold (i : ℕ) (l acc : List ℕ) (h : acc.Nodup) :
    (l.foldl (fun acc2 j => if j = i then acc2 else dedupPush acc2 j) acc).Nodup := by
  induction l generalizing acc with
  | nil => exact h
  | cons a t ih =>
      rw [List.foldl_cons]
      by_cases ha : a = i
      · rw [if_pos ha]
        exact ih _ h
      · rw [if_neg ha]
        exact ih _ (nodup_dedupPush _ _ h)

theorem mem_outerFold (winW winH : ℕ) (cellSize : ℚ) (shapes : List RingShape)
    (i : ℕ) (cells : List ℤ) (acc : List ℕ) (x : ℕ) :
    x ∈ cells.foldl (fun acc c =>
        (gridBucket winW winH cellSize shapes c).foldl
          (fun acc2 j => if j = i then acc2 else dedupPush acc2 j) acc) acc ↔
      x ∈ acc ∨ ∃ c ∈ cells, x ∈ gridBucket winW winH cellSize shapes c ∧ x ≠ i := by
  induction cells generalizing acc with
  | nil => simp
  | cons c t ih =>
      rw [List.foldl_cons, ih, mem_innerFold]
      constructor
      · rintro ((h | ⟨hb, hne⟩) | ⟨c2, hc2, hb2, hne⟩)
        · exact Or.inl h
        · exact Or.inr ⟨c, List.mem_cons_self _ _, hb, hne⟩
        · exact Or.inr ⟨c2, List.mem_cons_of_mem _ hc2, hb2, hne⟩
      · rintro (h | ⟨c2, hc2, hb2, hne⟩)
        · exact Or.inl (Or.inl h)
        · rcases List.mem_cons.mp hc2 with rfl | hc3
          · exact Or.inl (Or.inr ⟨hb2, hne⟩)
          · exact Or.inr ⟨c2, hc3, hb2, hne⟩

theorem nodup_outerFold (winW winH : ℕ) (cellSize : ℚ) (shapes : List RingShape)
    (i : ℕ) (cells : List ℤ) (acc : List ℕ) (h : acc.Nodup) :
    (cells.foldl (fun acc c =>
        (gridBucket winW winH cellSize shapes c).foldl
          (fun acc2 j => if j = i then acc2 else dedupPush acc2 j) acc) acc).Nodup := by
  induction cells generalizing acc with
  | nil => exact h
  | cons c t ih =>
      rw [List.foldl_cons]
      exact ih _ (nodup_innerFold _ _ _ h)

theorem getPotentialIntersections_of_some (winW winH : ℕ) (cellSize : ℚ)
    (shapes : List RingShape) (i : ℕ) (si : RingShape)
    (hsi : shapes[i]? = some si) :
    getPotentialIntersections winW winH cellSize shapes i =
      (getNeighborCells winW cellSize si).foldl (fun acc c =>
        (gridBucket winW winH cellSize shapes c).foldl (fun acc2 j =>
          if j = i then acc2 else dedupPush acc2 j) acc) [] := by
  unfold getPotentialIntersections
  rw [hsi]

theorem mem_getPotentialIntersections (winW winH : ℕ) (cellSize : ℚ)
    (shapes : List RingShape) (i j : ℕ) (si : RingShape)
    (hsi : shapes[i]? = some si) :
    j ∈ getPotentialIntersections winW winH cellSize shapes i ↔
      j ≠ i ∧ ∃ c ∈ getNeighborCells winW cellSize si,
        j ∈ gridBucket winW winH cellSize shapes c := by
  rw [getPotentialIntersections_of_some winW winH cellSize shapes i si hsi,
    mem_outerFold]
  simp only [List.not_mem_nil, false_or]
  constructor
  · rintro ⟨c, hc, hb, hne⟩
    exact ⟨hne, c, hc, hb⟩
  · rintro ⟨hne, c, hc, hb⟩
    exact ⟨c, hc, hb, hne⟩

theorem nodup_getPotentialIntersections (winW winH : ℕ) (cellSize : ℚ)
    (shapes : List RingShape) (i : ℕ) :
    (getPotentialIntersections winW winH cellSize shapes i).Nodup := by
  unfold getPotentialIntersections
  split
  · exact List.nodup_nil
  · exact nodup_outerFold _ _ _ _ _ _ _ List.nodup_nil

theorem mem_gridBucket (winW winH : ℕ) (cellSize : ℚ) (shapes : List RingShape)
    (c : ℤ) (j : ℕ) (sj : RingShape)
    (hsj : shapes[j]? = some sj) (hj : j < shapes.length)
    (hnear : isNearViewport winW winH sj VIEWPORT_MARGIN = true)
    (hc : c ∈ getNeighborCells winW cellSize sj) :
    j ∈ gridBucket winW winH cellSize shapes c := by
  unfold gridBucket
  rw [List.mem_filter]
  refine ⟨List.mem_range.mpr hj, ?_⟩
  rw [hsj]
  simp [hnear, hc]

theorem pairs_fst_lt (winW winH : ℕ) (cellSize : ℚ) (shapes : List RingShape) :
    ∀ p ∈ getAllPotentialPairs winW winH cellSize shapes, p.1 < p.2 := by
  intro p hp
  unfold getAllPotentialPairs at hp
  rw [List.mem_flatMap] at hp
  obtain ⟨i, _, hp2⟩ := hp
  rw [List.mem_filterMap] at hp2
  obtain ⟨j, _, hj2⟩ := hp2
  by_cases h : i < j ∧ j < shapes.length
  · rw [if_pos h] at hj2
    cases hj2
    exact h.1
  · rw [if_neg h] at hj2
    cases hj2

theorem pairs_blockFst (winW winH : ℕ) (cellSize : ℚ) (shapes : List RingShape)
    (i : ℕ) (x : ℕ × ℕ)
    (hx : x ∈ (getPotentialIntersections winW winH cellSize shapes i).filterMap
      (fun j => if i < j ∧ j < shapes.length then some (i, j) else none)) :
    x.1 = i := by
  rw [List.mem_filterMap] at hx
  obtain ⟨j, _, hj⟩ := hx
  by_cases h : i < j ∧ j < shapes.length
  · rw [if_pos h] at hj
    cases hj
    rfl
  · rw [if_neg h] at hj
    cases hj

theorem nodup_getAllPotentialPairs (winW winH : ℕ) (cellSize : ℚ)
    (shapes : List RingShape) :
    (getAllPotentialPairs winW winH cellSize shapes).Nodup := by
  unfold getAllPotentialPairs
  rw [List.nodup_flatMap]
  constructor
  · intro i _
    refine List.Nodup.filterMap ?_
      (nodup_getPotentialIntersections winW winH cellSize shapes i)
    intro a b c hca hcb
    by_cases h1 : i < a ∧ a < shapes.length
    · rw [if_pos h1] at hca
      by_cases h2 : i < b ∧ b < shapes.length
      · rw [if_pos h2] at hcb
        have e1 : (i, a) = c := by simpa using hca
        have e2 : (i, b) = c := by simpa using hcb
        rw [← e2] at e1
        exact (Prod.mk.injEq _ _ _ _).mp e1 |>.2
      · rw [if_neg h2] at hcb
        cases hcb
    · rw [if_neg h1] at hca
      cases hca
  · refine (List.pairwise_lt_range _).imp ?_
    intro a b hab x hxa hxb
    have h1 := pairs_blockFst winW winH cellSize shapes a x hxa
    have h2 := pairs_blockFst winW winH cellSize shapes b x hxb
    omega

theorem circlesIntersect_distSq_le (s1 s2 : RingShape)
    (hr : 0 ≤ s1.radius + s2.radius) (h : circlesIntersect s1 s2) :
    distSq s1 s2 ≤ (s1.radius + s2.radius) * (s1.radius + s2.radius) := by
  have h1 := h.1
  rw [centerDist] at h1
  have hy : (0:ℝ) ≤ (s1.radius : ℝ) + (s2.radius : ℝ) := by exact_mod_cast hr
  rw [Real.sqrt_le_left hy] at h1
  have h2 : ((distSq s1 s2 : ℚ) : ℝ) ≤
      (((s1.radius + s2.radius) * (s1.radius + s2.radius) : ℚ) : ℝ) := by
    push_cast
    nlinarith [h1]
  exact_mod_cast h2

theorem circle_overlap_bounds (s1 s2 : RingShape)
    (hr : 0 ≤ s1.radius + s2.radius)
    (hd : distSq s1 s2 ≤ (s1.radius + s2.radius) * (s1.radius + s2.radius)) :
    s1.centerX - s1.radius ≤ s2.centerX + s2.radius ∧
    s2.centerX - s2.radius ≤ s1.centerX + s1.radius ∧
    s1.centerY - s1.radius ≤ s2.centerY + s2.radius ∧
    s2.centerY - s2.radius ≤ s1.centerY + s1.radius := by
  unfold distSq at hd
  refine ⟨?_, ?_, ?_, ?_⟩
  · nlinarith [mul_self_nonneg (s2.centerY - s1.centerY),
      mul_self_nonneg (s2.centerX - s1.centerX + s1.radius + s2.radius)]
  · nlinarith [mul_self_nonneg (s2.centerY - s1.centerY),
      mul_self_nonneg (s2.centerX - s1.centerX - s1.radius - s2.radius)]
  · nlinarith [mul_self_nonneg (s2.centerX - s1.centerX),
      mul_self_nonneg (s2.centerY - s1.centerY + s1.radius + s2.radius)]
  · nlinarith [mul_self_nonneg (s2.centerX - s1.centerX),
      mul_self_nonneg (s2.centerY - s1.centerY - s1.radius - s2.radius)]

/-- C2 (amended): for any two shapes that are both near the viewport (not
culled by rebuild) and truly geometrically intersect, the candidate pair list
of getAllPotentialPairs contains the pair exactly once, with the indices in
increasing order; every returned pair has its first index smaller than its
second. -/
theorem C2_grid_superset (winW winH : ℕ) (cellSize : ℚ) (hcs : 0 < cellSize)
    (shapes : List RingShape) (i j : ℕ) (si sj : RingShape)
    (hij : i < j) (hjlen : j < shapes.length)
    (hsi : shapes[i]? = some si) (hsj : shapes[j]? = some sj)
    (hri : 0 ≤ si.radius) (hrj : 0 ≤ sj.radius)
    (_hni : isNearViewport winW winH si VIEWPORT_MARGIN = true)
    (hnj : isNearViewport winW winH sj VIEWPORT_MARGIN = true)
    (hint : circlesIntersect si sj) :
    (i, j) ∈ getAllPotentialPairs winW winH cellSize shapes ∧
    (getAllPotentialPairs winW winH cellSize shapes).Nodup ∧
    ∀ p ∈ getAllPotentialPairs winW winH cellSize shapes, p.1 < p.2 := by
  have hr : 0 ≤ si.radius + sj.radius := by linarith
  have hd := circlesIntersect_distSq_le si sj hr hint
  have hb := circle_overlap_bounds si sj hr hd
  have htx1 : si.centerX - si.radius ≤ max (si.centerX - si.radius) (sj.centerX - sj.radius) :=
    le_max_left _ _
  have htx2 : sj.centerX - sj.radius ≤ max (si.centerX - si.radius) (sj.centerX - sj.radius) :=
    le_max_right _ _
  have htx3 : max (si.centerX - si.radius) (sj.centerX - sj.radius) ≤
      si.centerX + si.radius := max_le (by linarith) hb.2.1
  have htx4 : max (si.centerX - si.radius) (sj.centerX - sj.radius) ≤
      sj.centerX + sj.radius := max_le hb.1 (by linarith)
  have hty1 : si.centerY - si.radius ≤ max (si.centerY - si.radius) (sj.centerY - sj.radius) :=
    le_max_left _ _
  have hty2 : sj.centerY - sj.radius ≤ max (si.centerY - si.radius) (sj.centerY - sj.radius) :=
    le_max_right _ _
  have hty3 : max (si.centerY - si.radius) (sj.centerY - sj.radius) ≤
      si.centerY + si.radius := max_le (by linarith) hb.2.2.2
  have hty4 : max (si.centerY - si.radius) (sj.centerY - sj.radius) ≤
      sj.centerY + sj.radius := max_le hb.2.2.1 (by linarith)
  have hdiv : ∀ u v : ℚ, u ≤ v → ⌊u / cellSize⌋ ≤ ⌊v / cellSize⌋ :=
    fun u v huv => Int.floor_mono ((div_le_div_iff_of_pos_right hcs).mpr huv)
  have hci : (⌊max (si.centerY - si.radius) (sj.centerY - sj.radius) / cellSize⌋ *
        gridWidth winW cellSize +
      ⌊max (si.centerX - si.radius) (sj.centerX - sj.radius) / cellSize⌋) ∈
      getNeighborCells winW cellSize si :=
    mem_getNeighborCells winW cellSize si _ _
      (hdiv _ _ htx1) (hdiv _ _ htx3) (hdiv _ _ hty1) (hdiv _ _ hty3)
  have hcj : (⌊max (si.centerY - si.radius) (sj.centerY - sj.radius) / cellSize⌋ *
        gridWidth winW cellSize +
      ⌊max (si.centerX - si.radius) (sj.centerX - sj.radius) / cellSize⌋) ∈
      getNeighborCells winW cellSize sj :=
    mem_getNeighborCells winW cellSize sj _ _
      (hdiv _ _ htx2) (hdiv _ _ htx4) (hdiv _ _ hty2) (hdiv _ _ hty4)
  have hbucket := mem_gridBucket winW winH cellSize shapes _ j sj hsj hjlen hnj hcj
  have hpot : j ∈ getPotentialIntersections winW winH cellSize shapes i :=
    (mem_getPotentialIntersections winW winH cellSize shapes i j si hsi).mpr
      ⟨by omega, _, hci, hbucket⟩
  have hmem : (i, j) ∈ getAllPotentialPairs winW winH cellSize shapes := by
    unfold getAllPotentialPairs
    rw [List.mem_flatMap]
    refine ⟨i, List.mem_range.mpr (by omega), ?_⟩
    rw [List.mem_filterMap]
    refine ⟨j, hpot, ?_⟩
    rw [if_pos ⟨hij, hjlen⟩]
  exact ⟨hmem, nodup_getAllPotentialPairs winW winH cellSize shapes,
    pairs_fst_lt winW winH cellSize shapes⟩

theorem foldl_buckets_fixed (winW winH : ℕ) (cellSize : ℚ)
    (shapes : List RingShape) (i : ℕ) (cells : List ℤ) (acc : List ℕ)
    (hbuckets : ∀ c, gridBucket winW winH cellSize shapes c = []) :
    cells.foldl (fun acc c =>
      (gridBucket winW winH cellSize shapes c).foldl
        (fun acc2 j => if j = i then acc2 else dedupPush acc2 j) acc) acc = acc := by
  induction cells generalizing acc with
  | nil => rfl
  | cons c t ih =>
      rw [List.foldl_cons, hbuckets c, List.foldl_nil]
      exact ih acc

theorem getAllPotentialPairs_eq_nil_of_culled (winW winH : ℕ) (cellSize : ℚ)
    (shapes : List RingShape)
    (h : ∀ (k : ℕ) (s : RingShape), shapes[k]? = some s →
      isNearViewport winW winH s VIEWPORT_MARGIN = false) :
    getAllPotentialPairs winW winH cellSize shapes = [] := by
  have hbuckets : ∀ c, gridBucket winW winH cellSize shapes c = [] := by
    intro c
    unfold gridBucket
    rw [List.filter_eq_nil_iff]
    intro k _
    cases hsk : shapes[k]? with
    | none => simp
    | some s => simp [h k s hsk]
  have hpot : ∀ k, getPotentialIntersections winW winH cellSize shapes k = [] := by
    intro k
    unfold getPotentialIntersections
    split
    · rfl
    · exact foldl_buckets_fixed winW winH cellSize shapes k _ [] hbuckets
  unfold getAllPotentialPairs
  apply List.flatMap_eq_nil_iff.mpr
  intro k _
  rw [hpot k]
  rfl

/-- C2 counterexample: two truly intersecting circles that are both far
off-screen are culled by rebuild, and getAllPotentialPairs returns no
candidate pair at all, so the candidate set is not a superset of all truly
intersecting pairs. -/
theorem C2_counterexample :
    circlesIntersect offShapeA offShapeB ∧
    getAllPotentialPairs 800 600 200 [offShapeA, offShapeB] = [] := by
  constructor
  · have hdist : centerDist offShapeA offShapeB = 5 := by
      rw [centerDist]
      rw [show ((distSq offShapeA offShapeB : ℚ) : ℝ) = (5 : ℝ) ^ 2 by
        norm_num [distSq, offShapeA, offShapeB]]
      rw [Real.sqrt_sq (by norm_num)]
    unfold circlesIntersect
    rw [hdist]
    norm_num [offShapeA, offShapeB]
  · apply getAllPotentialPairs_eq_nil_of_culled
    intro k s hks
    match k with
    | 0 =>
        have hs : s = offShapeA := by simpa using hks.symm
        subst hs
        norm_num [isNearViewport, offShapeA, VIEWPORT_MARGIN]
    | 1 =>
        have hs : s = offShapeB := by simpa using hks.symm
        subst hs
        norm_num [isNearViewport, offShapeB, VIEWPORT_MARGIN]
    | (n + 2) => simp at hks

/-- Witness for C2_grid_superset on two concrete on-screen intersecting
shapes. -/
theorem C2_grid_superset_witness :
    (0:ℚ) < 200 ∧
    isNearViewport 800 600 gridShapeA VIEWPORT_MARGIN = true ∧
    isNearViewport 800 600 gridShapeB VIEWPORT_MARGIN = true ∧
    circlesIntersect gridShapeA gridShapeB ∧
    ((0, 1) ∈ getAllPotentialPairs 800 600 200 [gridShapeA, gridShapeB] ∧
      (getAllPotentialPairs 800 600 200 [gridShapeA, gridShapeB]).Nodup) := by
  have hcs : (0:ℚ) < 200 := by norm_num
  have hna : isNearViewport 800 600 gridShapeA VIEWPORT_MARGIN = true := by
    simp [isNearViewport, gridShapeA, VIEWPORT_MARGIN]
    norm_num
  have hnb : isNearViewport 800 600 gridShapeB VIEWPORT_MARGIN = true := by
    simp [isNearViewport, gridShapeB, VIEWPORT_MARGIN]
    norm_num
  have hint : circlesIntersect gridShapeA gridShapeB := by
    have hdist : centerDist gridShapeA gridShapeB = 60 := by
      rw [centerDist]
      rw [show ((distSq gridShapeA gridShapeB : ℚ) : ℝ) = (60 : ℝ) ^ 2 by
        norm_num [distSq, gridShapeA, gridShapeB]]
      rw [Real.sqrt_sq (by norm_num)]
    unfold circlesIntersect
    rw [hdist]
    norm_num [gridShapeA, gridShapeB]
  have hmain := C2_grid_superset 800 600 200 hcs [gridShapeA, gridShapeB] 0 1
    gridShapeA gridShapeB (by norm_num) (by simp)
    rfl rfl (by norm_num [gridShapeA]) (by norm_num [gridShapeB])
    hna hnb hint
  exact ⟨hcs, hna, hnb, hint, hmain.1, hmain.2.1⟩

end Pond
